import Mathlib

/-!
Verification of the Pico-Go LAN robot control stack.

The firmware side (`src/firmware`) is embedded over `ℚ` (Python floats
idealised as exact rationals) and `ℤ` (millisecond clocks); the host
controller side (`src/controller/controller_xbox.py`) is embedded over `ℝ`
because its expo stage uses a non-integer real power.  Stateful Python
objects become Lean structures with explicit state-passing functions.
-/

/-- `utils.clamp` / `controller_xbox.clamp`: `max(min_val, min(max_val, value))`. -/
def clamp {α : Type} [LinearOrder α] (value min_val max_val : α) : α :=
  max min_val (min max_val value)

theorem clamp_eq_self {α : Type} [LinearOrderedField α] {x : α} (h : |x| ≤ 1) :
    clamp x (-1) 1 = x := by
  rcases abs_le.mp h with ⟨h1, h2⟩
  unfold clamp
  rw [min_eq_right h2, max_eq_right h1]

theorem abs_clamp_le_one {α : Type} [LinearOrderedField α] (x : α) :
    |clamp x (-1) 1| ≤ 1 := by
  unfold clamp
  rw [abs_le]
  constructor
  · exact le_max_left _ _
  · exact max_le (by norm_num) (min_le_left _ _)

/-! ## Firmware configuration constants (`src/firmware/config.py`) -/

def MAX_SPEED : ℚ := 1
def TURN_RATE : ℚ := 4/5
def MOTOR_MAX_DUTY : ℚ := 65535
def WATCHDOG_TIMEOUT_MS : ℤ := 500
def STATE_CLIENT_OK : String := "CLIENT_OK"
def STATE_DRIVING : String := "DRIVING"
def STATE_LINK_LOST : String := "LINK_LOST"

/-! ## Motors (`src/firmware/motor.py`) -/

/-- Hardware-visible state of one `Motor`: PWM duty, the two direction
lines, and the `current_speed` bookkeeping field. -/
structure MotorSt where
  duty : ℕ
  in1 : Bool
  in2 : Bool
  current_speed : ℚ
deriving DecidableEq, Repr

/-- `Motor.stop`: duty 0, both direction lines low, speed 0 (coast). -/
def MotorSt.stopped : MotorSt := ⟨0, false, false, 0⟩

/-- `Motor.set_speed`: clamp to `[-1, 1]`; below `0.01` magnitude fall back to
`stop()`; otherwise set duty `int(|speed|*100 * MOTOR_MAX_DUTY / 100)` and the
direction lines from the sign.  The resulting state does not depend on the
previous one, so it is a function of the speed alone. -/
def Motor.set_speed (speed : ℚ) : MotorSt :=
  let s := clamp speed (-1) 1
  if |s| < 1/100 then MotorSt.stopped
  else
    { duty := Int.toNat ⌊|s| * 100 * MOTOR_MAX_DUTY / 100⌋
      in1 := if 0 ≤ s then false else true
      in2 := if 0 ≤ s then true else false
      current_speed := s }

/-- State of `DifferentialDrive`: the `enabled` flag and both motors. -/
structure DriveSt where
  enabled : Bool
  left : MotorSt
  right : MotorSt
deriving DecidableEq, Repr

/-- `DifferentialDrive.stop`: stop both motors (enabled flag untouched). -/
def DriveSt.stop (d : DriveSt) : DriveSt :=
  { d with left := MotorSt.stopped, right := MotorSt.stopped }

/-- `DifferentialDrive.__init__`: motors constructed stopped, `enabled = False`,
then `stop()`. -/
def DriveSt.init : DriveSt :=
  DriveSt.stop { enabled := false, left := MotorSt.stopped, right := MotorSt.stopped }

/-- `DifferentialDrive.enable`: set `enabled`, then force both motors stopped. -/
def DriveSt.enable (d : DriveSt) : DriveSt :=
  DriveSt.stop { d with enabled := true }

/-- `DifferentialDrive.disable`: clear `enabled` and stop both motors. -/
def DriveSt.disable (d : DriveSt) : DriveSt :=
  DriveSt.stop { d with enabled := false }

/-- The pure wheel-mixing computation inside `DifferentialDrive.drive`
(lines 115-137 of `motor.py`): config limits, raw differential mix,
curvature-preserving normalisation when `max(|l|,|r|) > 1`, final clamp. -/
def DifferentialDrive.mix (throttle steer : ℚ) : ℚ × ℚ :=
  let t := clamp throttle (-1) 1 * MAX_SPEED
  let s := clamp steer (-1) 1 * TURN_RATE
  let left_speed_raw := t + s
  let right_speed_raw := t - s
  let max_magnitude := max |left_speed_raw| |right_speed_raw|
  let pair :=
    if 1 < max_magnitude then
      (left_speed_raw / max_magnitude, right_speed_raw / max_magnitude)
    else (left_speed_raw, right_speed_raw)
  (clamp pair.1 (-1) 1, clamp pair.2 (-1) 1)

/-- `DifferentialDrive.drive`: a no-op while disabled; otherwise run the mixer
and write both wheel speeds. -/
def DriveSt.drive (d : DriveSt) (throttle steer : ℚ) : DriveSt :=
  if d.enabled then
    let pair := DifferentialDrive.mix throttle steer
    { d with left := Motor.set_speed pair.1, right := Motor.set_speed pair.2 }
  else d

/-- The mixer as spec section 4.2 words it, including its step 4
("apply per-wheel calibration scale") which is absent from
`DifferentialDrive.drive`; written only to be compared with
`DifferentialDrive.mix`. -/
def mix_spec_scaled (left_scale right_scale throttle steer : ℚ) : ℚ × ℚ :=
  let t := clamp throttle (-1) 1 * MAX_SPEED
  let s := clamp steer (-1) 1 * TURN_RATE
  let left_speed_raw := t + s
  let right_speed_raw := t - s
  let max_magnitude := max |left_speed_raw| |right_speed_raw|
  let pair :=
    if 1 < max_magnitude then
      (left_speed_raw / max_magnitude, right_speed_raw / max_magnitude)
    else (left_speed_raw, right_speed_raw)
  (clamp (pair.1 * left_scale) (-1) 1, clamp (pair.2 * right_scale) (-1) 1)

/-! ## Calibration (`src/firmware/calibration.py`, `ws_server.py` handlers) -/

/-- The calibration record `{steering_trim, motor_left_scale, motor_right_scale}`. -/
structure Calibration where
  steering_trim : ℚ
  motor_left_scale : ℚ
  motor_right_scale : ℚ
deriving DecidableEq, Repr

/-- Modelled from the spec: the firmware `Calibration` object that
`ws_server.py` uses through `calibration.get_calibration()`,
`Calibration.from_dict` and `Calibration.to_dict` is not among the provided
sources (only its callers in `ws_server.py` are).  Per spec section 3 and P8,
writing a record clamps `steering_trim` into `[-0.2, 0.2]` and both motor
scales into `[0.5, 1.0]`, and never rejects. -/
def Calibration.from_dict (incoming : Calibration) : Calibration :=
  { steering_trim := clamp incoming.steering_trim (-(1/5)) (1/5)
    motor_left_scale := clamp incoming.motor_left_scale (1/2) 1
    motor_right_scale := clamp incoming.motor_right_scale (1/2) 1 }

/-- Modelled from the spec: `Calibration.to_dict` serialises the stored record
unchanged (it is what `get_calibration` replies with). -/
def Calibration.to_dict (c : Calibration) : Calibration := c

/-- `_process_set_calibration_command`: replace the store by the clamped
incoming record (`cal.from_dict(cal_data)`). -/
def process_set_calibration (_store incoming : Calibration) : Calibration :=
  Calibration.from_dict incoming

/-- `_process_get_calibration_command`: reply with `cal.to_dict()`. -/
def process_get_calibration (store : Calibration) : Calibration :=
  store.to_dict

theorem le_clamp {α : Type} [LinearOrder α] (x lo hi : α) : lo ≤ clamp x lo hi :=
  le_max_left _ _

theorem clamp_le {α : Type} [LinearOrder α] (x lo hi : α) (h : lo ≤ hi) :
    clamp x lo hi ≤ hi :=
  max_le h (min_le_left _ _)

/-! ## Mixer lemmas -/

theorem mix_eval (t s : ℚ) (ht : |t| ≤ 1) (hs : |s| ≤ 1) :
    DifferentialDrive.mix t s =
      if 1 < max |t * MAX_SPEED + s * TURN_RATE| |t * MAX_SPEED - s * TURN_RATE| then
        ((t * MAX_SPEED + s * TURN_RATE) /
            max |t * MAX_SPEED + s * TURN_RATE| |t * MAX_SPEED - s * TURN_RATE|,
         (t * MAX_SPEED - s * TURN_RATE) /
            max |t * MAX_SPEED + s * TURN_RATE| |t * MAX_SPEED - s * TURN_RATE|)
      else (t * MAX_SPEED + s * TURN_RATE, t * MAX_SPEED - s * TURN_RATE) := by
  simp only [DifferentialDrive.mix, clamp_eq_self ht, clamp_eq_self hs]
  set L := t * MAX_SPEED + s * TURN_RATE with hLdef
  set R := t * MAX_SPEED - s * TURN_RATE with hRdef
  set M := max |L| |R| with hMdef
  have hML : |L| ≤ M := le_max_left _ _
  have hMR : |R| ≤ M := le_max_right _ _
  split_ifs with h
  · have h0 : (0:ℚ) < M := lt_trans one_pos h
    have e1 : |L / M| ≤ 1 := by
      rw [abs_div, abs_of_pos h0]
      exact div_le_one_of_le₀ hML h0.le
    have e2 : |R / M| ≤ 1 := by
      rw [abs_div, abs_of_pos h0]
      exact div_le_one_of_le₀ hMR h0.le
    dsimp only
    rw [clamp_eq_self e1, clamp_eq_self e2]
  · have hm1 : M ≤ 1 := not_lt.mp h
    dsimp only
    rw [clamp_eq_self (hML.trans hm1), clamp_eq_self (hMR.trans hm1)]

/-- C3: for every (throttle, steer) in `[-1,1]²` the mixer's outputs lie in
`[-1,1]²`; and whenever the raw mix `l = t*MAX_SPEED + s*TURN_RATE`,
`r = t*MAX_SPEED - s*TURN_RATE` has `max(|l|,|r|) > 1`, the returned pair is
exactly `(l/m, r/m)`, the ratio `l/r` is preserved (cross-multiplied form)
and the larger magnitude equals 1. -/
theorem mixer_range_and_curvature (t s : ℚ) (ht : |t| ≤ 1) (hs : |s| ≤ 1) :
    |(DifferentialDrive.mix t s).1| ≤ 1 ∧ |(DifferentialDrive.mix t s).2| ≤ 1 ∧
    (1 < max |t * MAX_SPEED + s * TURN_RATE| |t * MAX_SPEED - s * TURN_RATE| →
      (DifferentialDrive.mix t s).1 = (t * MAX_SPEED + s * TURN_RATE) /
          max |t * MAX_SPEED + s * TURN_RATE| |t * MAX_SPEED - s * TURN_RATE| ∧
      (DifferentialDrive.mix t s).2 = (t * MAX_SPEED - s * TURN_RATE) /
          max |t * MAX_SPEED + s * TURN_RATE| |t * MAX_SPEED - s * TURN_RATE| ∧
      (DifferentialDrive.mix t s).1 * (t * MAX_SPEED - s * TURN_RATE) =
          (DifferentialDrive.mix t s).2 * (t * MAX_SPEED + s * TURN_RATE) ∧
      max |(DifferentialDrive.mix t s).1| |(DifferentialDrive.mix t s).2| = 1) := by
  rw [mix_eval t s ht hs]
  set L := t * MAX_SPEED + s * TURN_RATE with hLdef
  set R := t * MAX_SPEED - s * TURN_RATE with hRdef
  set M := max |L| |R| with hMdef
  have hML : |L| ≤ M := le_max_left _ _
  have hMR : |R| ≤ M := le_max_right _ _
  split_ifs with h
  · have h0 : (0:ℚ) < M := lt_trans one_pos h
    have e1 : |L / M| ≤ 1 := by
      rw [abs_div, abs_of_pos h0]
      exact div_le_one_of_le₀ hML h0.le
    have e2 : |R / M| ≤ 1 := by
      rw [abs_div, abs_of_pos h0]
      exact div_le_one_of_le₀ hMR h0.le
    refine ⟨e1, e2, fun _ => ⟨rfl, rfl, ?_, ?_⟩⟩
    · rw [div_mul_eq_mul_div, div_mul_eq_mul_div, mul_comm]
    · rw [abs_div, abs_div, abs_of_pos h0]
      rcases max_cases |L| |R| with ⟨hmx, hle⟩ | ⟨hmx, hlt⟩
      · have hM_eq : M = |L| := hmx
        have hL0 : |L| ≠ 0 := by rw [← hM_eq]; exact ne_of_gt h0
        rw [max_eq_left ((div_le_div_iff_of_pos_right h0).mpr hle), hM_eq, div_self hL0]
      · have hM_eq : M = |R| := hmx
        have hR0 : |R| ≠ 0 := by rw [← hM_eq]; exact ne_of_gt h0
        rw [max_eq_right ((div_le_div_iff_of_pos_right h0).mpr hlt.le), hM_eq, div_self hR0]
  · have hm1 : M ≤ 1 := not_lt.mp h
    exact ⟨hML.trans hm1, hMR.trans hm1, fun hc => absurd hc h⟩

theorem mixer_range_and_curvature_witness :
    max |(DifferentialDrive.mix 1 1).1| |(DifferentialDrive.mix 1 1).2| = 1 :=
  ((mixer_range_and_curvature 1 1 (by norm_num) (by norm_num)).2.2
    (by norm_num [MAX_SPEED, TURN_RATE, lt_max_iff, abs_of_pos])).2.2.2

/-- C4 counterexample: with the legal calibration scales `(0.5, 1.0)` and input
`(throttle, steer) = (0.5, 0)`, the mixer of `motor.py` returns `(0.5, 0.5)`
while the spec's scaled mixer would return `(0.25, 0.5)`; the code applies no
per-wheel calibration scale. -/
theorem mixer_ignores_calibration_scales_cex :
    DifferentialDrive.mix (1/2) 0 = (1/2, 1/2) ∧
    mix_spec_scaled (1/2) 1 (1/2) 0 = (1/4, 1/2) ∧
    DifferentialDrive.mix (1/2) 0 ≠ mix_spec_scaled (1/2) 1 (1/2) 0 := by
  have h1 : DifferentialDrive.mix (1/2) 0 = (1/2, 1/2) := by
    norm_num [DifferentialDrive.mix, clamp, MAX_SPEED, TURN_RATE, abs_of_nonneg,
      max_def, min_def]
  have h2 : mix_spec_scaled (1/2) 1 (1/2) 0 = (1/4, 1/2) := by
    norm_num [mix_spec_scaled, clamp, MAX_SPEED, TURN_RATE, abs_of_nonneg,
      max_def, min_def]
  refine ⟨h1, h2, ?_⟩
  rw [h1, h2]
  norm_num [Prod.ext_iff]

/-- C4 (amended): the differential mixer applies no per-wheel calibration
scale at all; its output coincides with the spec's scaled mixer exactly in the
case `motor_left_scale = motor_right_scale = 1`, i.e. the normalized wheel
commands go directly to the final clamp. -/
theorem mixer_applies_no_calibration_scale (t s : ℚ) :
    DifferentialDrive.mix t s = mix_spec_scaled 1 1 t s := by
  simp only [DifferentialDrive.mix, mix_spec_scaled, mul_one]

/-- C5: processing a `set_calibration` command stores the clamped record
(steering trim into `[-0.2, 0.2]`, motor scales into `[0.5, 1.0]`, never
rejected), and a subsequent `get_calibration` replies with exactly that
clamped record. -/
theorem calibration_set_get_roundtrip (store c : Calibration) :
    process_get_calibration (process_set_calibration store c) = Calibration.from_dict c ∧
    -(1/5) ≤ (process_set_calibration store c).steering_trim ∧
    (process_set_calibration store c).steering_trim ≤ 1/5 ∧
    1/2 ≤ (process_set_calibration store c).motor_left_scale ∧
    (process_set_calibration store c).motor_left_scale ≤ 1 ∧
    1/2 ≤ (process_set_calibration store c).motor_right_scale ∧
    (process_set_calibration store c).motor_right_scale ≤ 1 := by
  refine ⟨rfl, ?_, ?_, ?_, ?_, ?_, ?_⟩ <;>
    simp only [process_set_calibration, Calibration.from_dict]
  · exact le_clamp _ _ _
  · exact clamp_le _ _ _ (by norm_num)
  · exact le_clamp _ _ _
  · exact clamp_le _ _ _ (by norm_num)
  · exact le_clamp _ _ _
  · exact clamp_le _ _ _ (by norm_num)

/-- C10: a `DifferentialDrive` starts disabled; `drive` on a disabled drive is
a complete no-op (neither motor is touched), and `enable` first forces both
motors to the stopped state while setting the flag. -/
theorem motors_never_move_while_disabled :
    DriveSt.init.enabled = false ∧
    (∀ (d : DriveSt) (t s : ℚ), d.enabled = false → d.drive t s = d) ∧
    (∀ d : DriveSt,
      d.enable.enabled = true ∧ d.enable.left = MotorSt.stopped ∧
      d.enable.right = MotorSt.stopped) := by
  refine ⟨rfl, ?_, ?_⟩
  · intro d t s h
    simp [DriveSt.drive, h]
  · intro d
    exact ⟨rfl, rfl, rfl⟩

theorem motors_never_move_while_disabled_witness :
    DriveSt.init.drive 1 1 = DriveSt.init :=
  motors_never_move_while_disabled.2.1 DriveSt.init 1 1 rfl

/-! ## Watchdog and the drive packet path (`watchdog.py`, `ws_server.py`)

The watchdog is constructed with the motor controller, the LCD display and the
underglow controller all present (as `main.py` does), so the `if self.lcd_display`
style guards of the source are always taken.  `ticks_ms` clocks are idealised
as an `ℤ`-valued monotonic millisecond counter and `time_diff_ms start end` as
`end - start`. -/

/-- Combined state of the `Watchdog` and the components it acts on. -/
structure SafetyCtx where
  motor : DriveSt
  lcd : String
  glow : String
  last_packet_time : ℤ
  wd_enabled : Bool
  timed_out : Bool
  packet_count : ℕ
deriving DecidableEq, Repr

/-- `Watchdog._handle_timeout`: set `timed_out`, stop the motors, show
`LINK_LOST` on the LCD and the underglow. -/
def Watchdog.handle_timeout (c : SafetyCtx) : SafetyCtx :=
  { c with timed_out := true, motor := c.motor.stop,
           lcd := STATE_LINK_LOST, glow := STATE_LINK_LOST }

/-- `Watchdog.check_timeout`: nothing while disabled; on
`elapsed > timeout_ms` with `timed_out` still clear run `_handle_timeout` and
return `True`; otherwise return the current `timed_out` flag. -/
def Watchdog.check_timeout (c : SafetyCtx) (now_ticks : ℤ) : SafetyCtx × Bool :=
  if c.wd_enabled = false then (c, false)
  else if WATCHDOG_TIMEOUT_MS < now_ticks - c.last_packet_time ∧ c.timed_out = false then
    (Watchdog.handle_timeout c, true)
  else (c, c.timed_out)

/-- `Watchdog.feed`: record the packet time, bump the packet count, and if a
timeout was active clear it and show `DRIVING` again. -/
def Watchdog.feed (c : SafetyCtx) (now_ticks : ℤ) : SafetyCtx :=
  let c1 := { c with last_packet_time := now_ticks,
                     packet_count := c.packet_count + 1 }
  if c1.timed_out = true then
    { c1 with timed_out := false, lcd := STATE_DRIVING, glow := STATE_DRIVING }
  else c1

/-- A parsed `drive` packet.  `ts = none` models a datagram without a `ts`
field; the handler reads it as `packet.get("ts", 0)`. -/
structure DrivePacket where
  ts : Option ℤ
  throttle : ℚ
  steer : ℚ
  seq : ℤ
deriving DecidableEq, Repr

/-- `_process_drive_command` of `ws_server.py`: freshness check on `ts`
(skipped unless `ts > 0`; more than 1 s of negative age only warns), then feed
the watchdog, enable the motors if needed, run the drive, update the LCD, and
update the underglow when `packet_count == 1`.  Returns the processed flag.
`now_epoch` is `time.time()*1000`, `now_ticks` the `ticks_ms` clock. -/
def process_drive_command (c : SafetyCtx) (pkt : DrivePacket)
    (now_epoch now_ticks pkt_cnt max_age : ℤ) : SafetyCtx × Bool :=
  let ts := pkt.ts.getD 0
  if 0 < ts ∧ max_age < now_epoch - ts then (c, false)
  else
    let c1 := Watchdog.feed c now_ticks
    let c2 := if c1.motor.enabled then c1 else { c1 with motor := c1.motor.enable }
    let c3 := { c2 with motor := c2.motor.drive pkt.throttle pkt.steer,
                        lcd := STATE_DRIVING }
    let c4 := if pkt_cnt = 1 then { c3 with glow := STATE_DRIVING } else c3
    (c4, true)

/-- C1: when the watchdog is armed, more than `timeout_ms = 500` ms have
elapsed since the last feed, and it is not already timed out, the next
`check_timeout` stops both motors, publishes `LINK_LOST`, and sets
`timed_out`; and the next `feed` afterwards clears `timed_out` and publishes
`DRIVING`. -/
theorem watchdog_timeout_then_recover (c : SafetyCtx) (now now2 : ℤ)
    (harm : c.wd_enabled = true)
    (helapsed : WATCHDOG_TIMEOUT_MS < now - c.last_packet_time)
    (hnot : c.timed_out = false) :
    (Watchdog.check_timeout c now).2 = true ∧
    (Watchdog.check_timeout c now).1.timed_out = true ∧
    (Watchdog.check_timeout c now).1.motor.left = MotorSt.stopped ∧
    (Watchdog.check_timeout c now).1.motor.right = MotorSt.stopped ∧
    (Watchdog.check_timeout c now).1.lcd = STATE_LINK_LOST ∧
    (Watchdog.check_timeout c now).1.glow = STATE_LINK_LOST ∧
    (Watchdog.feed (Watchdog.check_timeout c now).1 now2).timed_out = false ∧
    (Watchdog.feed (Watchdog.check_timeout c now).1 now2).wd_enabled = true ∧
    (Watchdog.feed (Watchdog.check_timeout c now).1 now2).lcd = STATE_DRIVING ∧
    (Watchdog.feed (Watchdog.check_timeout c now).1 now2).glow = STATE_DRIVING := by
  have hct : Watchdog.check_timeout c now = (Watchdog.handle_timeout c, true) := by
    unfold Watchdog.check_timeout
    rw [if_neg (by simp [harm]), if_pos ⟨helapsed, hnot⟩]
  rw [hct]
  exact ⟨rfl, rfl, rfl, rfl, rfl, rfl, rfl, harm, rfl, rfl⟩

/-- A concrete armed context used to witness the watchdog theorem. -/
def wd_cex_ctx : SafetyCtx :=
  { motor := { enabled := true, left := MotorSt.stopped, right := MotorSt.stopped }
    lcd := STATE_DRIVING
    glow := STATE_DRIVING
    last_packet_time := 0
    wd_enabled := true
    timed_out := false
    packet_count := 3 }

theorem watchdog_timeout_then_recover_witness :
    (Watchdog.check_timeout wd_cex_ctx 600).1.lcd = STATE_LINK_LOST ∧
    (Watchdog.feed (Watchdog.check_timeout wd_cex_ctx 600).1 700).lcd = STATE_DRIVING :=
  ⟨(watchdog_timeout_then_recover wd_cex_ctx 600 700 rfl (by decide) rfl).2.2.2.2.1,
   (watchdog_timeout_then_recover wd_cex_ctx 600 700 rfl (by decide)
      rfl).2.2.2.2.2.2.2.2.1⟩

theorem feed_packet_count (c : SafetyCtx) (now_ticks : ℤ) :
    (Watchdog.feed c now_ticks).packet_count = c.packet_count + 1 := by
  simp only [Watchdog.feed]
  split_ifs <;> rfl

/-- C2 (amended): a `drive` packet that carries a positive `ts` older than
`max_age_ms` (500 ms on the UDP path, 200 ms on the TCP path) is rejected
without changing any state and without feeding the watchdog; a packet whose
positive `ts` is more than 1 s ahead of the local clock is still accepted and
feeds the watchdog (only a warning is logged).  Packets whose `ts` field is
missing or not positive skip the freshness check entirely. -/
theorem drive_freshness_rules (c : SafetyCtx) (pkt : DrivePacket)
    (now_epoch now_ticks pkt_cnt max_age : ℤ) :
    (∀ t : ℤ, pkt.ts = some t → 0 < t → max_age < now_epoch - t →
      process_drive_command c pkt now_epoch now_ticks pkt_cnt max_age = (c, false)) ∧
    (∀ t : ℤ, pkt.ts = some t → 0 < t → now_epoch - t < -1000 → 0 ≤ max_age →
      (process_drive_command c pkt now_epoch now_ticks pkt_cnt max_age).2 = true ∧
      (process_drive_command c pkt now_epoch now_ticks pkt_cnt max_age).1.packet_count =
        c.packet_count + 1) := by
  constructor
  · intro t hts h0 hage
    unfold process_drive_command
    rw [hts]
    exact if_pos ⟨h0, hage⟩
  · intro t hts h0 hahead hma
    have hcond : ¬(0 < (pkt.ts.getD 0) ∧ max_age < now_epoch - pkt.ts.getD 0) := by
      rw [hts]
      rintro ⟨-, hage⟩
      simp only [Option.getD_some] at hage
      omega
    constructor
    · unfold process_drive_command
      rw [if_neg hcond]
    · unfold process_drive_command
      rw [if_neg hcond]
      dsimp only
      split_ifs <;>
        · dsimp only
          exact feed_packet_count c now_ticks

theorem drive_freshness_rules_witness :
    process_drive_command wd_cex_ctx
        { ts := some 1000, throttle := 1/2, steer := 0, seq := 9 }
        2000 50 3 500
      = (wd_cex_ctx, false) :=
  (drive_freshness_rules wd_cex_ctx
      { ts := some 1000, throttle := 1/2, steer := 0, seq := 9 }
      2000 50 3 500).1 1000 rfl (by decide) (by decide)

theorem mix_half_zero : DifferentialDrive.mix (1/2) 0 = (1/2, 1/2) := by
  norm_num [DifferentialDrive.mix, clamp, MAX_SPEED, TURN_RATE, abs_of_nonneg,
    max_def, min_def]

/-- A context with motors enabled and stopped, as right after startup. -/
def drive_cex_ctx : SafetyCtx :=
  { motor := { enabled := true, left := MotorSt.stopped, right := MotorSt.stopped }
    lcd := STATE_CLIENT_OK
    glow := STATE_CLIENT_OK
    last_packet_time := 0
    wd_enabled := true
    timed_out := false
    packet_count := 0 }

/-- A `drive` packet explicitly carrying `ts = 0`. -/
def zero_ts_packet : DrivePacket := { ts := some 0, throttle := 1/2, steer := 0, seq := 5 }

/-- C2 counterexample: a `drive` packet carrying `ts = 0` is older than
`max_age_ms = 500` relative to a robot clock of `10^6` ms
(`now - ts = 10^6 > 500`), yet `_process_drive_command` accepts it: it
returns `True`, feeds the watchdog, and drives the left motor at `0.5`,
because the freshness check is guarded by `if timestamp > 0`. -/
theorem stale_zero_ts_drive_accepted :
    zero_ts_packet.ts = some 0 ∧
    500 < (1000000 : ℤ) - zero_ts_packet.ts.getD 0 ∧
    (process_drive_command drive_cex_ctx zero_ts_packet 1000000 7 3 500).2 = true ∧
    (process_drive_command drive_cex_ctx zero_ts_packet 1000000 7 3 500).1.packet_count
      = drive_cex_ctx.packet_count + 1 ∧
    (process_drive_command drive_cex_ctx zero_ts_packet 1000000 7 3
        500).1.motor.left.current_speed = 1/2 := by
  have hrun : process_drive_command drive_cex_ctx zero_ts_packet 1000000 7 3 500
      = ({ motor := { enabled := true, left := Motor.set_speed (1/2),
                      right := Motor.set_speed (1/2) }
           lcd := STATE_DRIVING
           glow := STATE_CLIENT_OK
           last_packet_time := 7
           wd_enabled := true
           timed_out := false
           packet_count := 1 }, true) := by
    unfold process_drive_command
    rw [if_neg (by simp [zero_ts_packet])]
    simp only [zero_ts_packet, drive_cex_ctx, Watchdog.feed, DriveSt.drive]
    norm_num [mix_half_zero]
  refine ⟨rfl, by decide, ?_, ?_, ?_⟩ <;> rw [hrun]
  · rfl
  · norm_num [Motor.set_speed, clamp, max_def, min_def, abs_of_nonneg]

/-! ## Host discovery (`controller_xbox.discover_robots_on_network`)

Datagrams that fail `json.loads` raise before the dedup bookkeeping and are
skipped, so only parsed replies are modelled.  Each reply carries its source
IP (`addr[0]`) and the optional JSON fields the handler reads with
`response.get(...)`. -/

/-- A parsed discovery reply datagram. -/
structure Reply where
  ip : String
  rtype : Option String
  robot_id : Option String
  hostname : Option String
  version : Option String
  color : Option (List ℕ)
deriving DecidableEq, Repr

/-- The robot entry built for a `robot_info` reply, with the handler's
`get(..., default)` fallbacks. -/
structure RobotInfo where
  robot_id : String
  hostname : String
  ip : String
  version : String
  color : List ℕ
deriving DecidableEq, Repr

def Reply.toRobotInfo (r : Reply) : RobotInfo :=
  { robot_id := r.robot_id.getD "?"
    hostname := r.hostname.getD "unknown"
    ip := r.ip
    version := r.version.getD "?"
    color := r.color.getD [255, 255, 255] }

/-- The collection loop of `discover_robots_on_network`: skip a reply whose
source IP was already seen, otherwise mark the IP seen and append an entry
exactly when the reply's `type` is `"robot_info"`. -/
def discoverGo : List Reply → List String → List RobotInfo
  | [], _ => []
  | r :: rest, seen =>
    if r.ip ∈ seen then discoverGo rest seen
    else if r.rtype = some "robot_info" then
      r.toRobotInfo :: discoverGo rest (r.ip :: seen)
    else discoverGo rest (r.ip :: seen)

/-- `discover_robots_on_network`: run the collection loop with `seen_ips`
initially empty. -/
def discover_robots_on_network (replies : List Reply) : List RobotInfo :=
  discoverGo replies []

theorem discoverGo_sound (replies : List Reply) :
    ∀ seen : List String,
      ((discoverGo replies seen).map RobotInfo.ip).Nodup ∧
      ∀ e ∈ discoverGo replies seen, e.ip ∉ seen ∧
        ∃ r, replies.find? (fun x => x.ip == e.ip) = some r ∧
          r.rtype = some "robot_info" ∧ r.toRobotInfo = e := by
  induction replies with
  | nil => intro seen; exact ⟨List.nodup_nil, by intro e he; cases he⟩
  | cons r rest ih =>
    intro seen
    by_cases hseen : r.ip ∈ seen
    · rw [discoverGo, if_pos hseen]
      refine ⟨(ih seen).1, ?_⟩
      intro e he
      obtain ⟨hnot, rr, hfind, hty, heq⟩ := (ih seen).2 e he
      have hne : (r.ip == e.ip) = false := by
        rw [beq_eq_false_iff_ne]
        intro hcontra
        exact hnot (hcontra ▸ hseen)
      refine ⟨hnot, rr, ?_, hty, heq⟩
      rw [List.find?_cons_of_neg _ (by simp [hne]), hfind]
    · by_cases hty : r.rtype = some "robot_info"
      · rw [discoverGo, if_neg hseen, if_pos hty]
        obtain ⟨ihnd, ihmem⟩ := ih (r.ip :: seen)
        constructor
        · rw [List.map_cons, List.nodup_cons]
          refine ⟨?_, ihnd⟩
          intro hmem
          obtain ⟨e, he, hip⟩ := List.mem_map.mp hmem
          exact (ihmem e he).1 (by rw [Reply.toRobotInfo] at hip; simp at hip; simp [hip])
        · intro e he
          rcases List.mem_cons.mp he with heq | htail
          · subst heq
            refine ⟨hseen, r, ?_, hty, rfl⟩
            rw [List.find?_cons_of_pos]
            simp [Reply.toRobotInfo]
          · obtain ⟨hnot, rr, hfind, hty2, heq⟩ := (ih (r.ip :: seen)).2 e htail
            have hne : r.ip ≠ e.ip := fun hcontra =>
              hnot (List.mem_cons.mpr (Or.inl hcontra.symm))
            refine ⟨fun hmem => hnot (List.mem_cons.mpr (Or.inr hmem)), rr, ?_, hty2, heq⟩
            rw [List.find?_cons_of_neg _ (by simp [hne]), hfind]
      · rw [discoverGo, if_neg hseen, if_neg hty]
        obtain ⟨ihnd, ihmem⟩ := ih (r.ip :: seen)
        refine ⟨ihnd, ?_⟩
        intro e he
        obtain ⟨hnot, rr, hfind, hty2, heq⟩ := ihmem e he
        have hne : r.ip ≠ e.ip := fun hcontra =>
          hnot (List.mem_cons.mpr (Or.inl hcontra.symm))
        refine ⟨fun hmem => hnot (List.mem_cons.mpr (Or.inr hmem)), rr, ?_, hty2, heq⟩
        rw [List.find?_cons_of_neg _ (by simp [hne]), hfind]

/-- C9: over any sequence of parsed reply datagrams in one scan, the returned
robot list has pairwise-distinct source IPs (at most one entry per IP); and
every entry comes from the first reply received from its IP, which has
`type = "robot_info"` and determines the entry exactly. -/
theorem discovery_dedup_and_type_filter (replies : List Reply) :
    ((discover_robots_on_network replies).map RobotInfo.ip).Nodup ∧
    ∀ e ∈ discover_robots_on_network replies,
      ∃ r, replies.find? (fun x => x.ip == e.ip) = some r ∧
        r.rtype = some "robot_info" ∧ r.toRobotInfo = e := by
  obtain ⟨hnd, hmem⟩ := discoverGo_sound replies []
  exact ⟨hnd, fun e he => (hmem e he).2⟩

def c9_reply1 : Reply :=
  { ip := "10.0.0.7", rtype := some "robot_info", robot_id := some "1"
    hostname := some "picogo1", version := some "1.0", color := some [255, 0, 0] }

def c9_reply2 : Reply :=
  { ip := "10.0.0.7", rtype := some "robot_info", robot_id := some "2"
    hostname := some "picogo2", version := some "1.0", color := some [0, 255, 0] }

theorem discovery_dedup_and_type_filter_witness :
    ∃ r, ([c9_reply1, c9_reply2].find?
        (fun x => x.ip == (Reply.toRobotInfo c9_reply1).ip)) = some r ∧
      r.rtype = some "robot_info" ∧ r.toRobotInfo = Reply.toRobotInfo c9_reply1 :=
  (discovery_dedup_and_type_filter [c9_reply1, c9_reply2]).2 c9_reply1.toRobotInfo
    (by decide)

/-! ## Host input shaping (`controller_xbox.py`)

Constants and functions from the Xbox controller pipeline.  `pow` with the
non-integer exponent `STEERING_EXPO = 1.5` is idealised as the real power
`Real.rpow`, hence this part of the embedding lives over `ℝ`. -/

noncomputable def DEAD_ZONE : ℝ := 2/25
noncomputable def THROTTLE_EXPO : ℝ := 2
noncomputable def STEERING_EXPO : ℝ := 3/2
noncomputable def THROTTLE_SENSITIVITY : ℝ := 1
noncomputable def STEERING_SENSITIVITY : ℝ := 2/5

/-- `apply_deadzone`: zero below the threshold, else rescale
`sign * (|x| - threshold) / (1 - threshold)` with `sign = 1 if value > 0 else -1`. -/
noncomputable def apply_deadzone (value threshold : ℝ) : ℝ :=
  if |value| < threshold then 0
  else (if 0 < value then (1:ℝ) else -1) * ((|value| - threshold) / (1 - threshold))

/-- `apply_expo`: zero below `0.001` magnitude, else `sign * |value| ** expo`. -/
noncomputable def apply_expo (value expo : ℝ) : ℝ :=
  if |value| < 1/1000 then 0
  else (if 0 < value then (1:ℝ) else -1) * |value| ^ expo

/-- `_process_trigger` inside `XboxController.get_axes`: map the SDL trigger
range `[-1, 1]` to `[0, 1]`, 10 % low-end deadzone, rescale. -/
noncomputable def process_trigger (raw_axis : ℝ) : ℝ :=
  let normalized := (raw_axis + 1) / 2
  if normalized < 1/10 then 0 else (normalized - 1/10) / (9/10)

/-- `XboxController.get_axes`: triggers to throttle, left stick X to steer;
deadzones, expo curves, sensitivity scaling, final clamp. -/
noncomputable def get_axes (right_trigger left_trigger left_stick_x : ℝ) : ℝ × ℝ :=
  let forward := process_trigger right_trigger
  let reverse := process_trigger left_trigger
  let throttle_raw := forward - reverse
  let steer_raw := left_stick_x
  let throttle0 := apply_deadzone throttle_raw (1/20)
  let steer0 := apply_deadzone steer_raw DEAD_ZONE
  let throttle1 := apply_expo throttle0 THROTTLE_EXPO
  let steer1 := apply_expo steer0 STEERING_EXPO
  let throttle2 := throttle1 * THROTTLE_SENSITIVITY
  let steer2 := steer1 * STEERING_SENSITIVITY
  (clamp throttle2 (-1) 1, clamp steer2 (-1) 1)

/-- The throttle value of `get_axes` just before the final clamp. -/
noncomputable def throttle_pre_clamp (right_trigger left_trigger : ℝ) : ℝ :=
  apply_expo (apply_deadzone (process_trigger right_trigger - process_trigger left_trigger)
    (1/20)) THROTTLE_EXPO * THROTTLE_SENSITIVITY

/-- The steer value of `get_axes` just before the final clamp. -/
noncomputable def steer_pre_clamp (left_stick_x : ℝ) : ℝ :=
  apply_expo (apply_deadzone left_stick_x DEAD_ZONE) STEERING_EXPO * STEERING_SENSITIVITY

/-- Spec section 4.8 step 4 as claimed: some positive constant
`SPEED_STEERING_REDUCTION` multiplies the steer value by
`1 - |throttle| * SPEED_STEERING_REDUCTION` before the final clamp. -/
def speed_attenuation_claim : Prop :=
  ∃ ρ : ℝ, 0 < ρ ∧ ∀ right_trigger left_trigger left_stick_x : ℝ,
    (get_axes right_trigger left_trigger left_stick_x).2 =
      clamp ((1 - |throttle_pre_clamp right_trigger left_trigger| * ρ) *
        steer_pre_clamp left_stick_x) (-1) 1

/-- The deadzone stage exactly as the spec words it:
`0` when `|x| < DEAD_ZONE`, else `sign(x) * (|x| - DEAD_ZONE)/(1 - DEAD_ZONE)`. -/
noncomputable def deadzone_spec_formula (x : ℝ) : ℝ :=
  if |x| < DEAD_ZONE then 0 else Real.sign x * ((|x| - DEAD_ZONE) / (1 - DEAD_ZONE))

/-- C7: for every raw axis value in `[-1, 1]` the deadzone stage computes the
spec's formula (exact 0 inside the deadzone, rescaled magnitude outside), and
the function is continuous at both `DEAD_ZONE` and `-DEAD_ZONE` in the ε-δ
sense. -/
theorem deadzone_formula_and_continuity :
    (∀ x : ℝ, |x| ≤ 1 → apply_deadzone x DEAD_ZONE = deadzone_spec_formula x) ∧
    (∀ ε : ℝ, 0 < ε → ∃ δ : ℝ, 0 < δ ∧ ∀ y : ℝ, |y - DEAD_ZONE| < δ →
      |apply_deadzone y DEAD_ZONE - apply_deadzone DEAD_ZONE DEAD_ZONE| < ε) ∧
    (∀ ε : ℝ, 0 < ε → ∃ δ : ℝ, 0 < δ ∧ ∀ y : ℝ, |y - (-DEAD_ZONE)| < δ →
      |apply_deadzone y DEAD_ZONE - apply_deadzone (-DEAD_ZONE) DEAD_ZONE| < ε) := by
  have hdz_pos : (0:ℝ) < DEAD_ZONE := by norm_num [DEAD_ZONE]
  have h23 : (0:ℝ) < 1 - DEAD_ZONE := by norm_num [DEAD_ZONE]
  have habs : |DEAD_ZONE| = DEAD_ZONE := abs_of_pos hdz_pos
  have hfc : apply_deadzone DEAD_ZONE DEAD_ZONE = 0 := by
    unfold apply_deadzone
    rw [habs, if_neg (lt_irrefl _), sub_self, zero_div, mul_zero]
  have habsn : |-DEAD_ZONE| = DEAD_ZONE := by rw [abs_neg, habs]
  have hfcn : apply_deadzone (-DEAD_ZONE) DEAD_ZONE = 0 := by
    unfold apply_deadzone
    rw [habsn, if_neg (lt_irrefl _), sub_self, zero_div, mul_zero]
  refine ⟨?_, ?_, ?_⟩
  · intro x hx
    unfold apply_deadzone deadzone_spec_formula
    by_cases h : |x| < DEAD_ZONE
    · rw [if_pos h, if_pos h]
    · rw [if_neg h, if_neg h]
      have hx0 : x ≠ 0 := by
        intro h0
        subst h0
        rw [abs_zero] at h
        exact h hdz_pos
      rcases lt_or_gt_of_ne hx0 with hneg | hpos
      · rw [if_neg (not_lt.mpr hneg.le), Real.sign_of_neg hneg]
      · rw [if_pos hpos, Real.sign_of_pos hpos]
  · intro ε hε
    refine ⟨min ((1 - DEAD_ZONE) * ε) DEAD_ZONE, lt_min (mul_pos h23 hε) hdz_pos, ?_⟩
    intro y hy
    rw [hfc, sub_zero]
    obtain ⟨hy1, hy2⟩ := abs_lt.mp hy
    have hδdz : min ((1 - DEAD_ZONE) * ε) DEAD_ZONE ≤ DEAD_ZONE := min_le_right _ _
    have hypos : 0 < y := by linarith
    by_cases hcase : |y| < DEAD_ZONE
    · unfold apply_deadzone
      rw [if_pos hcase, abs_zero]
      exact hε
    · unfold apply_deadzone
      rw [if_neg hcase, if_pos hypos, one_mul, abs_of_pos hypos]
      have hge : DEAD_ZONE ≤ y := by
        have := le_of_not_lt hcase
        rwa [abs_of_pos hypos] at this
      rw [abs_of_nonneg (div_nonneg (by linarith) h23.le), div_lt_iff₀ h23]
      have hub : y - DEAD_ZONE < (1 - DEAD_ZONE) * ε :=
        lt_of_lt_of_le hy2 (min_le_left _ _)
      linarith
  · intro ε hε
    refine ⟨min ((1 - DEAD_ZONE) * ε) DEAD_ZONE, lt_min (mul_pos h23 hε) hdz_pos, ?_⟩
    intro y hy
    rw [hfcn, sub_zero]
    rw [sub_neg_eq_add] at hy
    obtain ⟨hy1, hy2⟩ := abs_lt.mp hy
    have hδdz : min ((1 - DEAD_ZONE) * ε) DEAD_ZONE ≤ DEAD_ZONE := min_le_right _ _
    have hyneg : y < 0 := by linarith
    by_cases hcase : |y| < DEAD_ZONE
    · unfold apply_deadzone
      rw [if_pos hcase, abs_zero]
      exact hε
    · unfold apply_deadzone
      rw [if_neg hcase, if_neg (not_lt.mpr hyneg.le), abs_of_neg hyneg]
      have hge : DEAD_ZONE ≤ -y := by
        have := le_of_not_lt hcase
        rwa [abs_of_neg hyneg] at this
      rw [neg_one_mul, abs_neg,
        abs_of_nonneg (div_nonneg (by linarith) h23.le), div_lt_iff₀ h23]
      have hub : -y - DEAD_ZONE < (1 - DEAD_ZONE) * ε :=
        lt_of_lt_of_le (by linarith) (min_le_left _ _)
      linarith

theorem deadzone_formula_and_continuity_witness :
    apply_deadzone (1/2 : ℝ) DEAD_ZONE = deadzone_spec_formula (1/2) ∧
    (∃ δ : ℝ, 0 < δ ∧ ∀ y : ℝ, |y - DEAD_ZONE| < δ →
      |apply_deadzone y DEAD_ZONE - apply_deadzone DEAD_ZONE DEAD_ZONE| < 1) :=
  ⟨deadzone_formula_and_continuity.1 (1/2) (by rw [abs_of_pos] <;> norm_num),
   deadzone_formula_and_continuity.2.1 1 one_pos⟩

/-- The shaping stages that follow the deadzone in `get_axes`:
expo curve, then sensitivity, then the final clamp. -/
noncomputable def shape_post_deadzone (x expo sens : ℝ) : ℝ :=
  clamp (apply_expo x expo * sens) (-1) 1

/-- C8 counterexample: `x = 1/2000` is a deadzoned input in `[-1, 1]`
(produced by the raw stick value `4023/50000`), yet the pipeline with
`expo = 1.0` and sensitivity `1.0` maps it to `0`, not to `x`: `apply_expo`
zeroes every magnitude below `0.001`. -/
theorem expo_pipeline_not_identity_cex :
    |(1/2000 : ℝ)| ≤ 1 ∧
    apply_deadzone (4023/50000 : ℝ) DEAD_ZONE = 1/2000 ∧
    shape_post_deadzone (1/2000 : ℝ) 1 1 = 0 ∧
    shape_post_deadzone (1/2000 : ℝ) 1 1 ≠ 1/2000 := by
  have habs : |(1/2000 : ℝ)| = 1/2000 := abs_of_pos (by norm_num)
  have hshape : shape_post_deadzone (1/2000 : ℝ) 1 1 = 0 := by
    unfold shape_post_deadzone apply_expo
    rw [if_pos (by rw [habs]; norm_num), zero_mul]
    exact clamp_eq_self (by rw [abs_zero]; norm_num)
  refine ⟨by rw [habs]; norm_num, ?_, hshape, by rw [hshape]; norm_num⟩
  unfold apply_deadzone
  rw [show |(4023/50000 : ℝ)| = 4023/50000 from abs_of_pos (by norm_num),
    if_neg (by norm_num [DEAD_ZONE]), if_pos (by norm_num)]
  norm_num [DEAD_ZONE]

/-- C8 (amended): on deadzoned inputs in `[-1, 1]` the pipeline with
`expo = 1.0`, sensitivity `1.0` and no trim is the identity exactly on inputs
that are `0` or of magnitude at least `0.001`; magnitudes below `0.001` are
zeroed by `apply_expo`. -/
theorem expo_one_pipeline_identity (x : ℝ) (hx : |x| ≤ 1)
    (hbig : x = 0 ∨ 1/1000 ≤ |x|) :
    shape_post_deadzone x 1 1 = x := by
  unfold shape_post_deadzone apply_expo
  rcases hbig with h0 | hge
  · subst h0
    rw [if_pos (by rw [abs_zero]; norm_num), zero_mul]
    exact clamp_eq_self (by rw [abs_zero]; norm_num)
  · rw [if_neg (not_lt.mpr hge)]
    have hx0 : x ≠ 0 := by
      intro h
      subst h
      rw [abs_zero] at hge
      linarith
    have hsign : (if 0 < x then (1:ℝ) else -1) * |x| ^ (1:ℝ) = x := by
      rw [Real.rpow_one]
      rcases lt_or_gt_of_ne hx0 with hneg | hpos
      · rw [if_neg (not_lt.mpr hneg.le), abs_of_neg hneg]
        ring
      · rw [if_pos hpos, abs_of_pos hpos]
        ring
    rw [hsign, mul_one]
    exact clamp_eq_self hx

theorem expo_one_pipeline_identity_witness :
    shape_post_deadzone (1/2 : ℝ) 1 1 = 1/2 :=
  expo_one_pipeline_identity (1/2) (by rw [abs_of_pos] <;> norm_num)
    (Or.inr (by rw [abs_of_pos] <;> norm_num))

/-- C6 counterexample: no positive `SPEED_STEERING_REDUCTION` constant can
describe `get_axes`.  At full right trigger, released left trigger and full
right stick the code outputs steer `0.4` with throttle `1`; any positive
attenuation would force a steer output strictly below `0.4`. -/
theorem no_speed_steer_attenuation_cex : ¬ speed_attenuation_claim := by
  rintro ⟨ρ, hρ, h⟩
  have h1 := h 1 (-1) 1
  have htrig1 : process_trigger 1 = 1 := by
    simp only [process_trigger]
    rw [if_neg (by norm_num)]
    norm_num
  have htrigm1 : process_trigger (-1) = 0 := by
    simp only [process_trigger]
    rw [if_pos (by norm_num)]
  have hdz_throttle : apply_deadzone (1:ℝ) (1/20) = 1 := by
    unfold apply_deadzone
    rw [abs_one, if_neg (by norm_num), if_pos (by norm_num)]
    norm_num
  have hdz_steer : apply_deadzone (1:ℝ) DEAD_ZONE = 1 := by
    unfold apply_deadzone
    rw [abs_one, if_neg (by norm_num [DEAD_ZONE]), if_pos (by norm_num)]
    norm_num [DEAD_ZONE]
  have hexpo1 : ∀ e : ℝ, apply_expo 1 e = 1 := by
    intro e
    unfold apply_expo
    rw [abs_one, if_neg (by norm_num), if_pos (by norm_num), Real.one_rpow]
    norm_num
  have hthr : throttle_pre_clamp 1 (-1) = 1 := by
    unfold throttle_pre_clamp
    rw [htrig1, htrigm1, sub_zero, hdz_throttle, hexpo1]
    norm_num [THROTTLE_SENSITIVITY]
  have hsteer : steer_pre_clamp 1 = 2/5 := by
    unfold steer_pre_clamp
    rw [hdz_steer, hexpo1]
    norm_num [STEERING_SENSITIVITY]
  have hout : (get_axes 1 (-1) 1).2 = 2/5 := by
    have hre : (get_axes 1 (-1) 1).2 = clamp (steer_pre_clamp 1) (-1) 1 := rfl
    rw [hre, hsteer]
    exact clamp_eq_self (by rw [abs_of_pos] <;> norm_num)
  rw [hout, hthr, hsteer, abs_one, one_mul] at h1
  have hlt : (1 - ρ) * (2/5 : ℝ) < 2/5 := by nlinarith
  have hcl : clamp ((1 - ρ) * (2/5 : ℝ)) (-1) 1 < 2/5 := by
    unfold clamp
    exact max_lt (by norm_num)
      (lt_of_le_of_lt (min_le_right _ _) hlt)
  rw [← h1] at hcl
  exact lt_irrefl _ hcl

/-- C6 (amended): `XboxController.get_axes` applies no speed-dependent steer
attenuation: the steer output is exactly the clamp of
`expo(deadzone(steer_raw)) * STEERING_SENSITIVITY` and does not depend on the
trigger inputs, and likewise the throttle output is the clamp of its own
pre-clamp pipeline. -/
theorem steer_independent_of_throttle (right_trigger left_trigger left_stick_x : ℝ) :
    (get_axes right_trigger left_trigger left_stick_x).2 =
      clamp (steer_pre_clamp left_stick_x) (-1) 1 ∧
    (get_axes right_trigger left_trigger left_stick_x).1 =
      clamp (throttle_pre_clamp right_trigger left_trigger) (-1) 1 :=
  ⟨rfl, rfl⟩
